import Mathlib

/-!
Shallow embedding of the hass-immich-addon core (selection strategies,
media pipeline, refresh orchestrator) and proofs of its specification
properties.  Python functions are translated to Lean functions; fallible
calls return `Except Err`; the behaviour of external libraries (network,
Pillow/ffmpeg decoding, filesystem) is supplied through explicit
environment records so that every theorem quantifies over all of their
possible outcomes.
-/

namespace HassImmich

/-- Exception values the embedded Python code can raise or observe. -/
inductive Err where
  | keyError (name : String)
  | osError
  | valueError (msg : String)
  | unidentifiedImage
  | ffmpegError
  | requestError
  | indexError
  | badZip
  | other (msg : String)
deriving Repr, DecidableEq

/-- A filesystem path split the way `os.path.splitext` / `os.path.basename`
and `os.path.join` see it in the source: a directory, a stem and an
extension (with leading dot, original case). -/
structure MediaPath where
  dir : String
  stem : String
  ext : String
deriving Repr, DecidableEq

/-- `media_utils.SUPPORTED_IMAGE_FORMATS`. -/
def SUPPORTED_IMAGE_FORMATS : List String := [".jpg", ".jpeg", ".png", ".gif", ".webp"]

/-- `media_utils.SUPPORTED_VIDEO_FORMATS`. -/
def SUPPORTED_VIDEO_FORMATS : List String := [".mov", ".mp4"]

/-- `media_utils.HEIC_FORMATS`. -/
def HEIC_FORMATS : List String := [".heic", ".heif"]

/-- Python `str.lower()`, character by character. -/
def lowerString (s : String) : String := String.mk (s.data.map Char.toLower)

/-- `os.path.splitext(input_path)[1].lower()`. -/
def lowerExt (p : MediaPath) : String := lowerString p.ext

/-- Outcomes of the external decoding libraries for a given input file:
`still p = none` means Pillow opens, converts and saves the file
successfully; `still p = some e` means that pipeline raises `e`
(`Err.unidentifiedImage` models `PIL.Image.UnidentifiedImageError`).
`video` plays the same role for the ffmpeg transcode. -/
structure MediaEnv where
  still : MediaPath → Option Err
  video : MediaPath → Option Err

/-- The JPEG write performed by `convert_heic_to_jpg`: output path and the
`quality=` argument passed to `img.save`. -/
structure JpegSave where
  path : MediaPath
  quality : Nat
deriving Repr, DecidableEq

/-- `media_utils.convert_heic_to_jpg`: builds the `.jpg` output path in
`output_dir` from the input basename and re-encodes via Pillow; any
exception from the decode/save is re-raised after logging. -/
def convert_heic_to_jpg (env : MediaEnv) (input : MediaPath) (output_dir : String) :
    Except Err JpegSave :=
  let output : MediaPath := { dir := output_dir, stem := input.stem, ext := ".jpg" }
  match env.still input with
  | none => .ok { path := output, quality := 95 }
  | some e => .error e

/-- `media_utils.convert_heic_video_to_mp4`: builds the `.mp4` output path
in `output_dir` and transcodes with ffmpeg; an `ffmpeg.Error` is re-raised
after logging. -/
def convert_heic_video_to_mp4 (env : MediaEnv) (input : MediaPath) (output_dir : String) :
    Except Err MediaPath :=
  let output : MediaPath := { dir := output_dir, stem := input.stem, ext := ".mp4" }
  match env.video input with
  | none => .ok output
  | some e => .error e

/-- `media_utils.process_media_file`: dispatch on the lower-cased
extension; for a HEIC-family file try the still-image conversion and fall
back to the video conversion only when the failure was
`UnidentifiedImageError`; pass supported image/video files through
unchanged; raise `ValueError` otherwise. -/
def process_media_file (env : MediaEnv) (input : MediaPath) (output_dir : String) :
    Except Err MediaPath :=
  let ext := lowerExt input
  if ext ∈ HEIC_FORMATS then
    match convert_heic_to_jpg env input output_dir with
    | .ok j => .ok j.path
    | .error Err.unidentifiedImage => convert_heic_video_to_mp4 env input output_dir
    | .error e => .error e
  else if ext ∈ SUPPORTED_IMAGE_FORMATS ∨ ext ∈ SUPPORTED_VIDEO_FORMATS then
    .ok input
  else
    .error (Err.valueError ext)

/-- `media_utils.process_media_files`: per-file try/except that logs and
continues, collecting the successful output paths in input order.  `proc`
is the per-file processing (in the source, `process_media_file` applied to
the fixed output directory). -/
def process_media_files (proc : MediaPath → Except Err MediaPath) :
    List MediaPath → List MediaPath
  | [] => []
  | f :: rest =>
    match proc f with
    | .ok p => p :: process_media_files proc rest
    | .error _ => process_media_files proc rest

/-- `file_utils.cleanup_file`: delete `path` only if it exists; `removeOk`
is the outcome the OS gives to `os.remove` (an `OSError` is re-raised
after logging).  The filesystem is the list of existing file paths. -/
def cleanup_file (removeOk : Bool) (fs : List String) (path : String) :
    Except Err (List String) :=
  if path ∈ fs then
    if removeOk then .ok (fs.erase path) else .error Err.osError
  else .ok fs

/-! ## Selection strategies (`immich/selectors.py`) -/

/-- A JSON value appearing in an outgoing request body. -/
inductive JVal where
  | s (v : String)
  | n (v : Nat)
  | l (v : List String)
deriving Repr, DecidableEq

/-- An outgoing request body: keys paired with values, in insertion
order (Python dicts preserve insertion order). -/
abbrev RequestBody := List (String × JVal)

/-- The request body `b` carries the key `k`. -/
def HasKey (b : RequestBody) (k : String) : Prop :=
  ∃ v, (k, v) ∈ b

/-- Python truthiness of an optional string (`None` and `""` are falsy). -/
def truthyStr : Option String → Bool
  | none => false
  | some s => !s.isEmpty

/-- Python truthiness of an optional list (`None` and `[]` are falsy). -/
def truthyList : Option (List String) → Bool
  | none => false
  | some l => !l.isEmpty

/-- Python truthiness of an optional datetime (a `datetime` object is
always truthy); datetimes are embedded as their `isoformat()` strings. -/
def truthyDT : Option String → Bool
  | none => false
  | some _ => true

/-- The filter state shared by all three selector classes (`city`,
`person_ids`, `taken_after`, `taken_before` attributes). -/
structure SelectorParams where
  city : Option String
  person_ids : Option (List String)
  taken_after : Option String
  taken_before : Option String
deriving Repr, DecidableEq

/-- The optional-filter fields appended to a request body, in source
order: `takenAfter`, `takenBefore`, `personIds`, `city`, each guarded by
Python truthiness of the corresponding attribute. -/
def optionalFilterFields (p : SelectorParams) : RequestBody :=
  (match p.taken_after with
   | some d => [("takenAfter", JVal.s d)]
   | none => [])
  ++ (match p.taken_before with
      | some d => [("takenBefore", JVal.s d)]
      | none => [])
  ++ (match p.person_ids with
      | some ids => if ids.isEmpty then [] else [("personIds", JVal.l ids)]
      | none => [])
  ++ (match p.city with
      | some c => if c.isEmpty then [] else [("city", JVal.s c)]
      | none => [])

/-- The body `RandomAssetSelector.get_assets` posts to
`/api/search/random`: `size` and `type` always, then the optional
filters. -/
def randomRequestBody (p : SelectorParams) (count : Nat) : RequestBody :=
  [("size", JVal.n count), ("type", JVal.s "IMAGE")] ++ optionalFilterFields p

/-- The body the two smart selectors post to `/api/search/smart`:
`query`, `type` and `size` always, then the optional filters. -/
def smartRequestBody (query : String) (p : SelectorParams) (size : Nat) : RequestBody :=
  [("query", JVal.s query), ("type", JVal.s "IMAGE"), ("size", JVal.n size)] ++
    optionalFilterFields p

/-- One album item of a smart-search response; `assets = none` models an
album object without an `assets` key (the source checks
`if "assets" in album`). -/
structure AlbumItem where
  assets : Option (List String)
deriving Repr, DecidableEq

/-- A smart-search response: the identifiers of the direct-assets section
items and the albums section items. -/
structure SmartResponse where
  assets_items : List String
  albums_items : List AlbumItem
deriving Repr, DecidableEq

/-- The identifier list both smart selectors assemble from a response:
start from the assets section, then `extend` with each album's member
assets when the album has an `assets` key. -/
def smartCollectIds (r : SmartResponse) : List String :=
  r.albums_items.foldl
    (fun acc album =>
      match album.assets with
      | some xs => acc ++ xs
      | none => acc)
    r.assets_items

/-- `SmartSearchAssetSelector.get_assets`: the posted request body and
the identifier list returned for a given server response. -/
def smartGetAssets (query : String) (p : SelectorParams) (count : Nat)
    (r : SmartResponse) : RequestBody × List String :=
  (smartRequestBody query p count, smartCollectIds r)

/-- `dict.fromkeys`-style de-duplication: keep the first occurrence of
each identifier, in encounter order; `seen` is the set of keys already
inserted. -/
def dedupFirstAux [DecidableEq α] (seen : List α) : List α → List α
  | [] => []
  | a :: rest =>
    if a ∈ seen then dedupFirstAux seen rest
    else a :: dedupFirstAux (a :: seen) rest

/-- `list(dict.fromkeys(asset_ids))`. -/
def dedupFirst [DecidableEq α] (l : List α) : List α := dedupFirstAux [] l

/-- Modelled from the contract of Python's standard-library
`random.sample` (not repository code): sampling without replacement,
equivalent to a partial Fisher–Yates shuffle.  At step `j` the sampler
draws one position — `picks j`, reduced modulo the number of remaining
elements, so a uniform draw of `picks j` gives a uniform position — and
removes that element from the remaining pool. -/
def sampleWR [Inhabited α] : (picks : Nat → Nat) → List α → Nat → List α
  | _, _, 0 => []
  | picks, l, Nat.succ k =>
    if h : 0 < l.length then
      l.get ⟨picks 0 % l.length, Nat.mod_lt _ h⟩ ::
        sampleWR (fun n => picks (n + 1)) (l.eraseIdx (picks 0 % l.length)) k
    else []

/-- `RandomSmartSearchAssetSelector.get_assets` after the response
arrives: de-duplicate preserving order, return the whole pool when it is
not larger than `count`, otherwise `random.sample(pool, count)`. -/
def rngSelectFromPool (count : Nat) (pool : List String) (picks : Nat → Nat) :
    List String :=
  if pool.length ≤ count then pool else sampleWR picks pool count

/-- `RandomSmartSearchAssetSelector.get_assets`: posted request body
(`size = max_search_results`) and selected identifiers. -/
def rngGetAssets (query : String) (maxResults : Nat) (p : SelectorParams)
    (count : Nat) (r : SmartResponse) (picks : Nat → Nat) :
    RequestBody × List String :=
  (smartRequestBody query p maxResults,
   rngSelectFromPool count (dedupFirst (smartCollectIds r)) picks)

/-! ## Orchestrator (`photo_updater.py`) -/

/-- `config.schema.PhotoFilters`: one filter set.  Datetimes are embedded
as their `isoformat()` strings; `people = []` stands for Python's `None`
or an empty list (identical truthiness). -/
structure PhotoFilters where
  name : String
  selector_type : String
  search_query : Option String
  max_search_results : Option Nat
  city : Option String
  people : List String
  taken_after : Option String
  taken_before : Option String
deriving Repr, DecidableEq

/-- The `self.people` dictionary fetched from the server at startup:
display name to identifier, unique keys. -/
abbrev PersonDirectory := List (String × String)

/-- Python `dict[name]` as an option: first binding for `name`. -/
def lookupDict (d : PersonDirectory) (name : String) : Option String :=
  (d.find? (fun kv => kv.1 = name)).map Prod.snd

/-- The list comprehension
`[self.people[name] for name in filter_set.people]`: left-to-right
lookups, `none` modelling the `KeyError` raised at the first miss. -/
def resolveAll (d : PersonDirectory) : List String → Option (List String)
  | [] => some []
  | n :: rest =>
    match lookupDict d n with
    | some pid =>
      match resolveAll d rest with
      | some ids => some (pid :: ids)
      | none => none
    | none => none

/-- The `person_ids` computation of `_create_selector_for_filter`:
`person_ids` starts as `None`; when `filter_set.people` is truthy the
comprehension runs, and a `KeyError` is caught (a warning is logged)
leaving `person_ids` at `None`. -/
def resolvePersonIds (d : PersonDirectory) (people : List String) :
    Option (List String) :=
  if people.isEmpty then none else resolveAll d people

/-- The selector object `_create_selector_for_filter` returns, dispatched
on `selector_type`. -/
inductive Selector where
  | random (params : SelectorParams)
  | smart (search_query : Option String) (params : SelectorParams)
  | smartRng (search_query : Option String) (max_search_results : Nat)
      (params : SelectorParams)
deriving Repr, DecidableEq

/-- `PhotoUpdater._create_selector_for_filter`: resolve person names,
assemble the common parameters, and build the selector for the filter
set's kind (`smart`, `smart-rng`, anything else gives the random
selector; `max_search_results or 250` supplies the default). -/
def create_selector_for_filter (d : PersonDirectory) (f : PhotoFilters) : Selector :=
  let params : SelectorParams :=
    { city := f.city
      person_ids := resolvePersonIds d f.people
      taken_after := f.taken_after
      taken_before := f.taken_before }
  if f.selector_type = "smart" then
    .smart f.search_query params
  else if f.selector_type = "smart-rng" then
    .smartRng f.search_query (f.max_search_results.getD 250) params
  else
    .random params

/-- The filter parameters carried by a selector. -/
def Selector.params : Selector → SelectorParams
  | .random p => p
  | .smart _ p => p
  | .smartRng _ _ p => p

/-- `config.schema.AppConfig`, restricted to the fields the orchestrator
reads. -/
structure AppConfig where
  filters : List PhotoFilters
  num_photos : Nat
  hass_img_path : String
deriving Repr, DecidableEq

/-- The two mutable fields of `PhotoUpdater` that persist across cycles. -/
structure UpdaterState where
  current_filter_index : Nat
  last_update : Option Nat
deriving Repr, DecidableEq

/-- Observable filesystem actions of one cycle, in execution order. -/
inductive Action where
  | deleteArchive
  | deleteOriginal (p : MediaPath)
  | archiveCleanupAttempt (ok : Bool)
deriving Repr, DecidableEq

/-- Outcomes of the external world during one `update_photos` cycle: each
field is the result the corresponding call would produce if reached.
`procR` is the per-file outcome of `process_media_file`. -/
structure CycleEnv where
  selectorR : Except Err Unit
  cleanupDirR : Except Err Unit
  fetchR : Except Err (List String)
  downloadR : Except Err Unit
  saveR : Except Err Unit
  extractR : Except Err (List MediaPath)
  procR : MediaPath → Except Err MediaPath
  archiveCleanupR : Except Err Unit
  origCleanupR : MediaPath → Except Err Unit
  handlerCleanupOk : Bool
  now : Nat

/-- The `for file in extracted_files: if file not in processed_files:
cleanup_file(file)` loop; an `OSError` from `cleanup_file` propagates. -/
def cleanupOriginalsLoop (env : CycleEnv) (processed : List MediaPath) :
    List MediaPath → Except Err (List Action)
  | [] => .ok []
  | f :: rest =>
    if f ∈ processed then cleanupOriginalsLoop env processed rest
    else
      match env.origCleanupR f with
      | .ok _ =>
        match cleanupOriginalsLoop env processed rest with
        | .ok acts => .ok (Action.deleteOriginal f :: acts)
        | .error e => .error e
      | .error e => .error e

/-- The `try:` body of `PhotoUpdater.update_photos`: selector update,
stale-file cleanup, fetch, download, save, extract, convert, archive
cleanup, original cleanup, then record the success timestamp and advance
the rotation cursor modulo the number of configured filter sets. -/
def updatePhotosBody (env : CycleEnv) (cfg : AppConfig) (s : UpdaterState) :
    Except Err (UpdaterState × List Action) := do
  let _ ← env.selectorR
  let _ ← env.cleanupDirR
  let _ ← env.fetchR
  let _ ← env.downloadR
  let _ ← env.saveR
  let files ← env.extractR
  let processed := process_media_files env.procR files
  let _ ← env.archiveCleanupR
  let dels ← cleanupOriginalsLoop env processed files
  .ok ({ current_filter_index := (s.current_filter_index + 1) % cfg.filters.length,
         last_update := some env.now },
       Action.deleteArchive :: dels)

/-- `PhotoUpdater.update_photos`: the cursor read
`self.config.filters[self.current_filter_index]` happens before the
`try:` (an out-of-range cursor would propagate `IndexError`); any
exception from the body is caught, a best-effort `cleanup_file` of the
archive is attempted with its own errors swallowed, and the method
returns with the state unchanged. -/
def updatePhotos (env : CycleEnv) (cfg : AppConfig) (s : UpdaterState) :
    Except Err (UpdaterState × List Action) :=
  if s.current_filter_index < cfg.filters.length then
    match updatePhotosBody env cfg s with
    | .ok r => .ok r
    | .error _ => .ok (s, [Action.archiveCleanupAttempt env.handlerCleanupOk])
  else .error Err.indexError

/-- The state after one call of `update_photos` (cycles never propagate,
so the error branch here is never reached for a valid cursor). -/
def cycleStep (env : CycleEnv) (cfg : AppConfig) (s : UpdaterState) : UpdaterState :=
  match updatePhotos env cfg s with
  | .ok (s1, _) => s1
  | .error _ => s

/-- The orchestrator state after the first `k` cycles of the run loop,
cycle `i` running under environment `envs i`. -/
def statesAfter (envs : Nat → CycleEnv) (cfg : AppConfig) (s0 : UpdaterState) :
    Nat → UpdaterState
  | 0 => s0
  | k + 1 => cycleStep (envs k) cfg (statesAfter envs cfg s0 k)

/-- Every step of the cycle body succeeds under `env`. -/
def SuccEnv (env : CycleEnv) : Prop :=
  env.selectorR = .ok () ∧ env.cleanupDirR = .ok () ∧
  (∃ ids, env.fetchR = .ok ids) ∧ env.downloadR = .ok () ∧
  env.saveR = .ok () ∧ (∃ files, env.extractR = .ok files) ∧
  env.archiveCleanupR = .ok () ∧ (∀ f, env.origCleanupR f = .ok ())

/-! ## Concrete fixtures (inputs for witnesses and counterexamples) -/

/-- The publish directory used in concrete runs. -/
def imgDir : String := "/config/www/photos"

/-- A HEIC-family file as extracted from an archive. -/
def heicFile : MediaPath := { dir := imgDir, stem := "img1", ext := ".heic" }

/-- Decoding environment in which every still decode succeeds. -/
def envStillOk : MediaEnv := { still := fun _ => none, video := fun _ => none }

/-- Decoding environment: still decode raises `UnidentifiedImageError`,
video transcode succeeds. -/
def envStillUnidentified : MediaEnv :=
  { still := fun _ => some Err.unidentifiedImage, video := fun _ => none }

/-- Decoding environment: still decode raises `UnidentifiedImageError`
and the video transcode raises `ffmpeg.Error`. -/
def envBothFail : MediaEnv :=
  { still := fun _ => some Err.unidentifiedImage, video := fun _ => some Err.ffmpegError }

/-- A plain random filter set. -/
def randomFilter : PhotoFilters :=
  { name := "default", selector_type := "random", search_query := none,
    max_search_results := none, city := none, people := [],
    taken_after := none, taken_before := none }

/-- A configuration with a single random filter set. -/
def cfgOne : AppConfig :=
  { filters := [randomFilter], num_photos := 3, hass_img_path := imgDir }

/-- A cycle in which every orchestration step succeeds but the single
extracted HEIC file fails both conversions. -/
def envC5 : CycleEnv :=
  { selectorR := .ok (), cleanupDirR := .ok (), fetchR := .ok ["asset-1"],
    downloadR := .ok (), saveR := .ok (), extractR := .ok [heicFile],
    procR := fun f => process_media_file envBothFail f imgDir,
    archiveCleanupR := .ok (), origCleanupR := fun _ => .ok (),
    handlerCleanupOk := true, now := 7 }

/-- A cycle in which the asset fetch raises and the error handler's own
archive cleanup also fails. -/
def envFetchFails : CycleEnv :=
  { envC5 with fetchR := .error Err.requestError, handlerCleanupOk := false }

/-- A cycle in which every step succeeds and nothing is extracted. -/
def envAllOk : CycleEnv :=
  { envC5 with extractR := .ok [] }

/-- A person directory knowing only Alice. -/
def dirAlice : PersonDirectory := [("Alice", "id-1")]

/-- A filter set asking for Alice (resolvable) and Bob (not known). -/
def filterAliceBob : PhotoFilters :=
  { randomFilter with name := "pair", people := ["Alice", "Bob"] }

/-- A person directory knowing only Carol. -/
def dirCarol : PersonDirectory := [("Carol", "id-9")]

/-- A filter set asking for Carol (resolvable) and a missing name. -/
def filterCarolMissing : PhotoFilters :=
  { randomFilter with name := "trip", people := ["Carol", "Missing"] }

/-- Selector parameters with no optional filter set. -/
def noFilters : SelectorParams :=
  { city := none, person_ids := none, taken_after := none, taken_before := none }

/-- A smart-search response whose albums section contributes an extra
identifier beyond the direct-assets section. -/
def respOverflow : SmartResponse :=
  { assets_items := ["a1"], albums_items := [{ assets := some ["a2"] }] }

/-- A smart-search response with an overlap between the direct assets and
an album's member assets. -/
def respPool : SmartResponse :=
  { assets_items := ["a1", "a2"], albums_items := [{ assets := some ["a2", "a3"] }] }

/-- A random filter set with every optional field populated. -/
def filterFull : PhotoFilters :=
  { name := "full", selector_type := "random", search_query := none,
    max_search_results := none, city := some "Boston", people := ["Alice"],
    taken_after := some "2024-01-01T00:00:00", taken_before := none }

/-- A configuration with two filter sets. -/
def cfgTwo : AppConfig :=
  { filters := [randomFilter, filterFull], num_photos := 3, hass_img_path := imgDir }

/-! ## Theorems -/

/-- C10: deleting a missing file is a no-op: for every path that does not
refer to an existing file, `cleanup_file` returns normally, leaves the
filesystem unchanged, and never reaches the removal's error branch,
whatever the OS would have answered to a removal. -/
theorem cleanup_file_missing_noop (removeOk : Bool) (fs : List String) (p : String)
    (h : p ∉ fs) : cleanup_file removeOk fs p = .ok fs := by
  simp [cleanup_file, h]

/-- C10 witness: deleting the never-written archive out of a filesystem
holding one photo succeeds trivially. -/
theorem cleanup_file_missing_noop_witness :
    "/config/www/photos/photos.zip" ∉ ["/config/www/photos/img1.jpg"] ∧
    cleanup_file false ["/config/www/photos/img1.jpg"] "/config/www/photos/photos.zip" =
      .ok ["/config/www/photos/img1.jpg"] :=
  ⟨by decide,
   cleanup_file_missing_noop false ["/config/www/photos/img1.jpg"]
     "/config/www/photos/photos.zip" (by decide)⟩

/-- C6: batch processing never aborts early: for every per-file processor
(including ones that raise) and every input list, `process_media_files`
visits every file in order and returns exactly the successful output
paths, in input order; a per-file exception only drops that file. -/
theorem process_media_files_never_aborts (proc : MediaPath → Except Err MediaPath)
    (files : List MediaPath) :
    process_media_files proc files = files.filterMap (fun f => (proc f).toOption) := by
  induction files with
  | nil => rfl
  | cons f rest ih =>
    cases h : proc f <;>
      simp [process_media_files, h, ih, Except.toOption, List.filterMap_cons]

/-- C7: HEIC decode fallback: a HEIC-family file is first re-encoded as a
quality-95 JPEG; exactly when the still decode raises
`UnidentifiedImageError` the file is instead transcoded to an `.mp4`
path; supported image/video extensions pass through unchanged; any other
extension raises `ValueError`. -/
theorem process_media_file_dispatch (env : MediaEnv) (p : MediaPath) (outDir : String) :
    (lowerExt p ∈ HEIC_FORMATS →
      (env.still p = none →
        convert_heic_to_jpg env p outDir =
          .ok { path := { dir := outDir, stem := p.stem, ext := ".jpg" }, quality := 95 } ∧
        process_media_file env p outDir =
          .ok { dir := outDir, stem := p.stem, ext := ".jpg" }) ∧
      (env.still p = some Err.unidentifiedImage →
        process_media_file env p outDir = convert_heic_video_to_mp4 env p outDir ∧
        (env.video p = none →
          process_media_file env p outDir =
            .ok { dir := outDir, stem := p.stem, ext := ".mp4" }))) ∧
    (lowerExt p ∉ HEIC_FORMATS →
      (lowerExt p ∈ SUPPORTED_IMAGE_FORMATS ∨ lowerExt p ∈ SUPPORTED_VIDEO_FORMATS) →
      process_media_file env p outDir = .ok p) ∧
    (lowerExt p ∉ HEIC_FORMATS → lowerExt p ∉ SUPPORTED_IMAGE_FORMATS →
      lowerExt p ∉ SUPPORTED_VIDEO_FORMATS →
      process_media_file env p outDir = .error (Err.valueError (lowerExt p))) := by
  refine ⟨fun hheic => ⟨fun hstill => ?_, fun hunid => ?_⟩,
    fun hnh hsup => ?_, fun hnh hni hnv => ?_⟩
  · constructor
    · simp [convert_heic_to_jpg, hstill]
    · simp [process_media_file, convert_heic_to_jpg, hheic, hstill]
  · constructor
    · simp [process_media_file, convert_heic_to_jpg, hheic, hunid]
    · intro hvid
      simp [process_media_file, convert_heic_to_jpg, convert_heic_video_to_mp4,
        hheic, hunid, hvid]
  · simp [process_media_file, hnh, hsup]
  · simp [process_media_file, hnh, hni, hnv]

/-- C7 witness: an upper-case `.HEIC` file whose still decode raises
`UnidentifiedImageError` but which transcodes as a video comes back as an
`.mp4` path, and with a successful still decode the same name comes back
as a quality-95 `.jpg`. -/
theorem process_media_file_dispatch_witness :
    process_media_file envStillUnidentified { dir := imgDir, stem := "clip", ext := ".HEIC" }
        imgDir = .ok { dir := imgDir, stem := "clip", ext := ".mp4" } ∧
    convert_heic_to_jpg envStillOk { dir := imgDir, stem := "clip", ext := ".HEIC" } imgDir =
      .ok { path := { dir := imgDir, stem := "clip", ext := ".jpg" }, quality := 95 } := by
  constructor
  · exact ((((process_media_file_dispatch envStillUnidentified
      { dir := imgDir, stem := "clip", ext := ".HEIC" } imgDir).1
      (by decide)).2 rfl).2 rfl)
  · exact ((((process_media_file_dispatch envStillOk
      { dir := imgDir, stem := "clip", ext := ".HEIC" } imgDir).1
      (by decide)).1 rfl).1)

/-- When every per-file `cleanup_file` call succeeds the originals loop
returns normally. -/
theorem cleanupOriginalsLoop_total (env : CycleEnv) (processed : List MediaPath)
    (h : ∀ f, env.origCleanupR f = .ok ()) (files : List MediaPath) :
    ∃ acts, cleanupOriginalsLoop env processed files = .ok acts := by
  induction files with
  | nil => exact ⟨[], rfl⟩
  | cons f rest ih =>
    obtain ⟨acts, hacts⟩ := ih
    by_cases hf : f ∈ processed
    · exact ⟨acts, by simp [cleanupOriginalsLoop, hf, hacts]⟩
    · exact ⟨Action.deleteOriginal f :: acts, by simp [cleanupOriginalsLoop, hf, h f, hacts]⟩

/-- A fully successful cycle records the timestamp and advances the
cursor modulo the number of filter sets. -/
theorem updatePhotos_success (env : CycleEnv) (cfg : AppConfig) (s : UpdaterState)
    (henv : SuccEnv env) (hidx : s.current_filter_index < cfg.filters.length) :
    ∃ acts, updatePhotos env cfg s =
      .ok ({ current_filter_index := (s.current_filter_index + 1) % cfg.filters.length,
             last_update := some env.now }, acts) := by
  obtain ⟨h1, h2, ⟨ids, h3⟩, h4, h5, ⟨files, h6⟩, h7, h8⟩ := henv
  obtain ⟨acts, hacts⟩ := cleanupOriginalsLoop_total env (process_media_files env.procR files)
    h8 files
  exact ⟨Action.deleteArchive :: acts, by
    simp [updatePhotos, hidx, updatePhotosBody, h1, h2, h3, h4, h5, h6, h7, hacts,
      bind, Except.bind]⟩

/-- A cycle whose body raised leaves the state untouched. -/
theorem cycleStep_failure_keeps_state (env : CycleEnv) (cfg : AppConfig) (s : UpdaterState)
    (e : Err) (hidx : s.current_filter_index < cfg.filters.length)
    (herr : updatePhotosBody env cfg s = .error e) : cycleStep env cfg s = s := by
  simp [cycleStep, updatePhotos, hidx, herr]

/-- Cursor value after `k` all-successful cycles starting from index 0. -/
theorem statesAfter_success_index (cfg : AppConfig) (envs : Nat → CycleEnv)
    (hm : 1 ≤ cfg.filters.length) :
    ∀ k, (∀ i, i < k → SuccEnv (envs i)) →
      (statesAfter envs cfg { current_filter_index := 0, last_update := none }
          k).current_filter_index = k % cfg.filters.length
  | 0, _ => by simp [statesAfter]
  | k + 1, hs => by
    have ih := statesAfter_success_index cfg envs hm k
      (fun i hi => hs i (Nat.lt_succ_of_lt hi))
    have hidx : (statesAfter envs cfg { current_filter_index := 0, last_update := none }
        k).current_filter_index < cfg.filters.length := by
      rw [ih]; exact Nat.mod_lt _ hm
    obtain ⟨acts, hup⟩ := updatePhotos_success (envs k) cfg _
      (hs k (Nat.lt_succ_self k)) hidx
    simp [statesAfter, cycleStep, hup, ih, Nat.mod_add_mod]

/-- C1: rotation cursor invariant: with `m ≥ 1` configured filter sets,
after `k` consecutive successful cycles from index 0 the cursor equals
`k % m`; and any cycle whose body raises leaves the cursor exactly as it
was before the cycle. -/
theorem rotation_cursor_invariant (cfg : AppConfig) (envs : Nat → CycleEnv) (k : Nat)
    (hm : 1 ≤ cfg.filters.length) (hs : ∀ i, i < k → SuccEnv (envs i)) :
    (statesAfter envs cfg { current_filter_index := 0, last_update := none }
        k).current_filter_index = k % cfg.filters.length ∧
    (∀ env s e, s.current_filter_index < cfg.filters.length →
      updatePhotosBody env cfg s = .error e →
      (cycleStep env cfg s).current_filter_index = s.current_filter_index) := by
  refine ⟨statesAfter_success_index cfg envs hm k hs, fun env s e hidx herr => ?_⟩
  rw [cycleStep_failure_keeps_state env cfg s e hidx herr]

/-- Every step of `envAllOk` succeeds. -/
theorem succEnv_envAllOk : SuccEnv envAllOk :=
  ⟨rfl, rfl, ⟨["asset-1"], rfl⟩, rfl, rfl, ⟨[], rfl⟩, rfl, fun _ => rfl⟩

/-- C1 witness: three successful cycles over two filter sets land the
cursor on `3 % 2`. -/
theorem rotation_cursor_invariant_witness :
    (statesAfter (fun _ => envAllOk) cfgTwo
        { current_filter_index := 0, last_update := none } 3).current_filter_index = 3 % 2 :=
  (rotation_cursor_invariant cfgTwo (fun _ => envAllOk) 3 (by decide)
    (fun _ _ => succEnv_envAllOk)).1

/-- C2: cycle-level error containment: with a valid cursor,
`update_photos` always returns normally; when any step of its body
raises, it returns the unchanged state after attempting the best-effort
archive deletion, swallowing that deletion's own failure (the returned
action records the attempt's outcome, successful or not), so the run
loop proceeds to its next iteration. -/
theorem cycle_error_containment (env : CycleEnv) (cfg : AppConfig) (s : UpdaterState)
    (hidx : s.current_filter_index < cfg.filters.length) :
    (∃ r, updatePhotos env cfg s = .ok r) ∧
    (∀ e, updatePhotosBody env cfg s = .error e →
      updatePhotos env cfg s =
        .ok (s, [Action.archiveCleanupAttempt env.handlerCleanupOk])) := by
  constructor
  · cases h : updatePhotosBody env cfg s with
    | ok r => exact ⟨r, by simp [updatePhotos, hidx, h]⟩
    | error e =>
      exact ⟨(s, [Action.archiveCleanupAttempt env.handlerCleanupOk]),
        by simp [updatePhotos, hidx, h]⟩
  · intro e he
    simp [updatePhotos, hidx, he]

/-- C2 witness: a cycle whose fetch raises — and whose error-handler
archive deletion itself fails — still returns normally with the state
unchanged. -/
theorem cycle_error_containment_witness :
    updatePhotos envFetchFails cfgOne { current_filter_index := 0, last_update := none } =
      .ok ({ current_filter_index := 0, last_update := none },
        [Action.archiveCleanupAttempt false]) :=
  (cycle_error_containment envFetchFails cfgOne
    { current_filter_index := 0, last_update := none } (by decide)).2 Err.requestError rfl

/-- C5 (failing input): a cycle whose only extracted file is a HEIC that
fails both the still-image and the video conversion completes
successfully with an empty processed list — and the orchestrator's
cleanup loop DELETES the failed original (`deleteOriginal heicFile` in
the trace), although both the spec and the code's own comment ("Only
delete original if it was converted") say it must be retained. -/
theorem heic_both_fail_original_deleted :
    process_media_files envC5.procR [heicFile] = [] ∧
    updatePhotos envC5 cfgOne { current_filter_index := 0, last_update := none } =
      .ok ({ current_filter_index := 0, last_update := some 7 },
        [Action.deleteArchive, Action.deleteOriginal heicFile]) := by
  exact ⟨rfl, rfl⟩

/-- C3 counterexample: with `desiredCount = 1` and a server response
carrying one direct asset and one album-sourced asset, the smart
strategy returns both identifiers — the result is longer than
`desiredCount`; no truncation happens. -/
theorem smart_truncation_counterexample :
    (smartGetAssets "beach" noFilters 1 respOverflow).2 = ["a1", "a2"] ∧
    ¬ ((smartGetAssets "beach" noFilters 1 respOverflow).2.length ≤ 1) := by
  exact ⟨rfl, by decide⟩

/-- Accumulating `extend` over the albums section equals appending the
flattened album member lists. -/
theorem foldl_album_extend (albums : List AlbumItem) (init : List String) :
    albums.foldl
      (fun acc album =>
        match album.assets with
        | some xs => acc ++ xs
        | none => acc) init =
      init ++ (albums.map (fun a => a.assets.getD [])).flatten := by
  induction albums generalizing init with
  | nil => simp
  | cons a rest ih =>
    cases h : a.assets <;> simp [h, ih, List.append_assoc]

/-- C3 (amended): the smart strategy posts `size = desiredCount` together
with the query, and returns the direct-assets identifiers followed by
every album-sourced identifier in response order, without truncation —
the result may exceed `desiredCount`. -/
theorem smart_get_assets_characterization (q : String) (p : SelectorParams)
    (count : Nat) (r : SmartResponse) :
    ("size", JVal.n count) ∈ (smartGetAssets q p count r).1 ∧
    ("query", JVal.s q) ∈ (smartGetAssets q p count r).1 ∧
    (smartGetAssets q p count r).2 =
      r.assets_items ++ (r.albums_items.map (fun a => a.assets.getD [])).flatten := by
  refine ⟨?_, ?_, ?_⟩
  · simp [smartGetAssets, smartRequestBody]
  · simp [smartGetAssets, smartRequestBody]
  · simpa [smartGetAssets, smartCollectIds] using
      foldl_album_extend r.albums_items r.assets_items

/-- C9 counterexample: with Alice resolvable and Bob missing from the
person directory, the built selector carries no person-identifier filter
at all — Alice's resolved identifier is not applied, contrary to the
claim that resolved names are still filtered on. -/
theorem person_lookup_counterexample :
    lookupDict dirAlice "Alice" = some "id-1" ∧
    "Alice" ∈ filterAliceBob.people ∧
    (create_selector_for_filter dirAlice filterAliceBob).params.person_ids = none := by
  exact ⟨rfl, by decide, rfl⟩

/-- A single unresolved name makes the whole comprehension raise
`KeyError`: `resolveAll` returns `none`. -/
theorem resolveAll_none_of_miss (d : PersonDirectory) :
    ∀ people : List String, (∃ n, n ∈ people ∧ lookupDict d n = none) →
      resolveAll d people = none
  | [], h => absurd h (by simp)
  | p :: rest, h => by
    rcases h with ⟨n, hn, hmiss⟩
    rcases List.mem_cons.mp hn with rfl | hn'
    · simp [resolveAll, hmiss]
    · cases hp : lookupDict d p <;>
        simp [resolveAll, hp, resolveAll_none_of_miss d rest ⟨n, hn', hmiss⟩]

/-- The created selector's parameters, whatever the selector kind. -/
theorem create_selector_params (d : PersonDirectory) (f : PhotoFilters) :
    (create_selector_for_filter d f).params =
      { city := f.city, person_ids := resolvePersonIds d f.people,
        taken_after := f.taken_after, taken_before := f.taken_before } := by
  simp only [create_selector_for_filter]
  split
  · rfl
  · split <;> rfl

/-- C9 (amended): construction never raises (it is a total function);
when the people list is non-empty and any configured name is missing
from the directory, the entire person-identifier filter is dropped
(`person_ids = none`) — identifiers of the names that do resolve are not
applied either; only when every name resolves are all identifiers
applied, in order. -/
theorem person_lookup_miss_drops_filter (d : PersonDirectory) (f : PhotoFilters)
    (hne : f.people ≠ []) :
    (create_selector_for_filter d f).params.person_ids = resolvePersonIds d f.people ∧
    ((∃ n, n ∈ f.people ∧ lookupDict d n = none) →
      (create_selector_for_filter d f).params.person_ids = none) ∧
    (∀ ids, resolveAll d f.people = some ids →
      (create_selector_for_filter d f).params.person_ids = some ids) := by
  rw [create_selector_params]
  refine ⟨rfl, fun hmiss => ?_, fun ids hids => ?_⟩
  · simp [resolvePersonIds, hne, resolveAll_none_of_miss d f.people hmiss]
  · simp [resolvePersonIds, hne, hids]

/-- C9 (amended) witness: Carol resolves but a second name does not, so
the built selector drops the person filter entirely. -/
theorem person_lookup_miss_drops_filter_witness :
    (create_selector_for_filter dirCarol filterCarolMissing).params.person_ids = none :=
  (person_lookup_miss_drops_filter dirCarol filterCarolMissing (by decide)).2.1
    ⟨"Missing", by decide, rfl⟩

/-- Shape of the `/api/search/random` request body, for any selector
parameters: no `query` key ever; `size` and `type` always; each optional
filter key present exactly when the corresponding attribute is truthy in
Python's sense, and never carried with a null or empty value. -/
theorem randomRequestBody_shape (p : SelectorParams) (count : Nat) :
    (¬ HasKey (randomRequestBody p count) "query") ∧
    ("size", JVal.n count) ∈ randomRequestBody p count ∧
    ("type", JVal.s "IMAGE") ∈ randomRequestBody p count ∧
    (HasKey (randomRequestBody p count) "takenAfter" ↔ p.taken_after ≠ none) ∧
    (HasKey (randomRequestBody p count) "takenBefore" ↔ p.taken_before ≠ none) ∧
    (HasKey (randomRequestBody p count) "personIds" ↔
      ∃ ids, p.person_ids = some ids ∧ ids ≠ []) ∧
    (HasKey (randomRequestBody p count) "city" ↔
      ∃ c, p.city = some c ∧ c ≠ "") ∧
    (∀ v, ("personIds", v) ∈ randomRequestBody p count →
      ∃ ids, v = JVal.l ids ∧ ids ≠ []) ∧
    (∀ v, ("city", v) ∈ randomRequestBody p count →
      ∃ c, v = JVal.s c ∧ c ≠ "") := by
  obtain ⟨c, pid, ta, tb⟩ := p
  rcases ta with _ | ta <;> rcases tb with _ | tb <;>
    rcases pid with _ | pid <;> rcases c with _ | c <;>
    simp only [randomRequestBody, optionalFilterFields, HasKey] <;>
    (try split_ifs) <;>
    simp_all [List.isEmpty_iff, String.isEmpty_iff]

/-- C8: for every filter set whose kind is not smart/smart-rng the built
strategy is the random selector; its request body never carries a
search-query key, always carries `size` and `type`, carries each of
`takenAfter`, `takenBefore`, `personIds`, `city` exactly when the
corresponding selector value is set (non-empty), and never sends a null
or empty value for them. -/
theorem random_selector_request_shape (d : PersonDirectory) (f : PhotoFilters) (count : Nat)
    (hs : f.selector_type ≠ "smart") (hr : f.selector_type ≠ "smart-rng") :
    create_selector_for_filter d f =
      .random { city := f.city, person_ids := resolvePersonIds d f.people,
                taken_after := f.taken_after, taken_before := f.taken_before } ∧
    (∀ params, create_selector_for_filter d f = .random params →
      ((¬ HasKey (randomRequestBody params count) "query") ∧
       ("size", JVal.n count) ∈ randomRequestBody params count ∧
       ("type", JVal.s "IMAGE") ∈ randomRequestBody params count ∧
       (HasKey (randomRequestBody params count) "takenAfter" ↔ params.taken_after ≠ none) ∧
       (HasKey (randomRequestBody params count) "takenBefore" ↔ params.taken_before ≠ none) ∧
       (HasKey (randomRequestBody params count) "personIds" ↔
         ∃ ids, params.person_ids = some ids ∧ ids ≠ []) ∧
       (HasKey (randomRequestBody params count) "city" ↔
         ∃ c, params.city = some c ∧ c ≠ "") ∧
       (∀ v, ("personIds", v) ∈ randomRequestBody params count →
         ∃ ids, v = JVal.l ids ∧ ids ≠ []) ∧
       (∀ v, ("city", v) ∈ randomRequestBody params count →
         ∃ c, v = JVal.s c ∧ c ≠ ""))) := by
  refine ⟨?_, fun params _ => randomRequestBody_shape params count⟩
  simp [create_selector_for_filter, hs, hr]

/-- C8 witness: a fully-populated random filter set builds the random
selector with exactly its configured values (and Alice resolved). -/
theorem random_selector_request_shape_witness :
    create_selector_for_filter dirAlice filterFull =
      Selector.random { city := some "Boston", person_ids := some ["id-1"],
                        taken_after := some "2024-01-01T00:00:00",
                        taken_before := none } :=
  (random_selector_request_shape dirAlice filterFull 5 (by decide) (by decide)).1

/-- Membership in the first-seen de-duplication: exactly the elements of
the list not already seen. -/
theorem mem_dedupFirstAux [DecidableEq α] (l : List α) :
    ∀ (seen : List α) (x : α), x ∈ dedupFirstAux seen l ↔ x ∈ l ∧ x ∉ seen := by
  induction l with
  | nil => intro seen x; simp [dedupFirstAux]
  | cons a rest ih =>
    intro seen x
    by_cases ha : a ∈ seen
    · rw [dedupFirstAux, if_pos ha, ih]
      constructor
      · rintro ⟨hx, hs⟩
        exact ⟨List.mem_cons_of_mem a hx, hs⟩
      · rintro ⟨hx, hs⟩
        rcases List.mem_cons.mp hx with rfl | h
        · exact absurd ha hs
        · exact ⟨h, hs⟩
    · rw [dedupFirstAux, if_neg ha]
      constructor
      · intro hx
        rcases List.mem_cons.mp hx with rfl | h
        · exact ⟨List.mem_cons_self _ _, ha⟩
        · obtain ⟨hr, hs⟩ := (ih (a :: seen) x).mp h
          exact ⟨List.mem_cons_of_mem a hr, fun hxs => hs (List.mem_cons_of_mem a hxs)⟩
      · rintro ⟨hx, hs⟩
        rcases List.mem_cons.mp hx with rfl | h
        · exact List.mem_cons_self _ _
        · by_cases hxa : x = a
          · subst hxa; exact List.mem_cons_self _ _
          · refine List.mem_cons_of_mem a ((ih (a :: seen) x).mpr ⟨h, fun hxs => ?_⟩)
            exact (List.mem_cons.mp hxs).elim hxa hs

/-- The first-seen de-duplication never repeats an element. -/
theorem nodup_dedupFirstAux [DecidableEq α] (l : List α) :
    ∀ seen : List α, (dedupFirstAux seen l).Nodup := by
  induction l with
  | nil => intro seen; simp [dedupFirstAux]
  | cons a rest ih =>
    intro seen
    by_cases ha : a ∈ seen
    · rw [dedupFirstAux, if_pos ha]; exact ih seen
    · rw [dedupFirstAux, if_neg ha]
      refine List.nodup_cons.mpr ⟨fun hmem => ?_, ih (a :: seen)⟩
      exact ((mem_dedupFirstAux rest (a :: seen) a).mp hmem).2 (List.mem_cons_self a seen)

/-- The first-seen de-duplication is a sublist of its input (keeps its
relative order). -/
theorem dedupFirstAux_sublist [DecidableEq α] (l : List α) :
    ∀ seen : List α, (dedupFirstAux seen l).Sublist l := by
  induction l with
  | nil => intro seen; simp [dedupFirstAux]
  | cons a rest ih =>
    intro seen
    by_cases ha : a ∈ seen
    · rw [dedupFirstAux, if_pos ha]; exact (ih seen).cons a
    · rw [dedupFirstAux, if_neg ha]; exact (ih (a :: seen)).cons₂ a

/-- Only membership of the seen accumulator matters. -/
theorem dedupFirstAux_congr [DecidableEq α] (l : List α) :
    ∀ s₁ s₂ : List α, (∀ x, x ∈ s₁ ↔ x ∈ s₂) →
      dedupFirstAux s₁ l = dedupFirstAux s₂ l := by
  induction l with
  | nil => intro _ _ _; rfl
  | cons a rest ih =>
    intro s₁ s₂ h
    by_cases ha : a ∈ s₁
    · rw [dedupFirstAux, if_pos ha, dedupFirstAux, if_pos ((h a).mp ha)]
      exact ih s₁ s₂ h
    · have ha₂ : a ∉ s₂ := fun hh => ha ((h a).mpr hh)
      rw [dedupFirstAux, if_neg ha, dedupFirstAux, if_neg ha₂]
      exact congrArg (a :: ·) (ih (a :: s₁) (a :: s₂) (fun x => by simp [h x]))

/-- Marking `a` as seen is the same as filtering `a` out of the input. -/
theorem dedupFirstAux_cons_seen [DecidableEq α] (l : List α) :
    ∀ (seen : List α) (a : α),
      dedupFirstAux (a :: seen) l = dedupFirstAux seen (l.filter (fun x => x ≠ a)) := by
  induction l with
  | nil => intro seen a; rfl
  | cons b rest ih =>
    intro seen a
    by_cases hba : b = a
    · subst hba
      have hb : b ∈ b :: seen := List.mem_cons_self b seen
      rw [dedupFirstAux, if_pos hb, List.filter_cons, if_neg (by simp)]
      exact ih seen b
    · rw [List.filter_cons, if_pos (by simp [hba])]
      by_cases hbs : b ∈ seen
      · have hb₁ : b ∈ a :: seen := List.mem_cons_of_mem a hbs
        rw [dedupFirstAux, if_pos hb₁, dedupFirstAux, if_pos hbs]
        exact ih seen a
      · have hb₁ : b ∉ a :: seen := fun hh =>
          (List.mem_cons.mp hh).elim hba hbs
        rw [dedupFirstAux, if_neg hb₁, dedupFirstAux, if_neg hbs]
        refine congrArg (b :: ·) ?_
        rw [dedupFirstAux_congr rest (b :: a :: seen) (a :: b :: seen)
          (fun x => by constructor <;> (intro hx; simp at hx ⊢; tauto))]
        exact ih (b :: seen) a

/-- First-seen order, as a recurrence: the head of the input is kept at
its first position and every later occurrence is dropped. -/
theorem dedupFirst_cons [DecidableEq α] (a : α) (l : List α) :
    dedupFirst (a :: l) = a :: dedupFirst (l.filter (fun x => x ≠ a)) := by
  rw [dedupFirst, dedupFirstAux, if_neg (List.not_mem_nil a)]
  exact congrArg (a :: ·) (dedupFirstAux_cons_seen l [] a)

/-- The sample has length `min k (pool length)`. -/
theorem sampleWR_length [Inhabited α] :
    ∀ (k : Nat) (picks : Nat → Nat) (l : List α),
      (sampleWR picks l k).length = min k l.length
  | 0, picks, l => by simp [sampleWR]
  | k + 1, picks, l => by
    by_cases h : 0 < l.length
    · rw [sampleWR, dif_pos h]
      rw [List.length_cons, sampleWR_length k, List.length_eraseIdx,
        if_pos (Nat.mod_lt _ h)]
      omega
    · rw [sampleWR, dif_neg h]
      simp only [List.length_nil]
      omega

/-- Every sampled element comes from the pool. -/
theorem sampleWR_subset [Inhabited α] :
    ∀ (k : Nat) (picks : Nat → Nat) (l : List α) (x : α),
      x ∈ sampleWR picks l k → x ∈ l
  | 0, _, l, x => by simp [sampleWR]
  | k + 1, picks, l, x => by
    by_cases h : 0 < l.length
    · rw [sampleWR, dif_pos h]
      intro hx
      rcases List.mem_cons.mp hx with rfl | hx'
      · exact l.get_mem _ _
      · exact (List.eraseIdx_sublist l _).subset (sampleWR_subset k _ _ x hx')
    · rw [sampleWR, dif_neg h]
      simp

/-- In a duplicate-free list, the element at an index does not survive
erasing that index. -/
theorem get_not_mem_eraseIdx_of_nodup {l : List α} (hl : l.Nodup)
    (i : Nat) (hi : i < l.length) : l.get ⟨i, hi⟩ ∉ l.eraseIdx i := by
  intro hmem
  obtain ⟨j, hj, hji, hjx⟩ := List.mem_eraseIdx_iff_getElem.mp hmem
  have : (⟨j, hj⟩ : Fin l.length) = ⟨i, hi⟩ :=
    hl.get_inj_iff.mp (by simpa [List.get_eq_getElem] using hjx)
  exact hji (by simpa using congrArg Fin.val this)

/-- Sampling without replacement from a duplicate-free pool never repeats
an element. -/
theorem sampleWR_nodup [Inhabited α] :
    ∀ (k : Nat) (picks : Nat → Nat) (l : List α), l.Nodup →
      (sampleWR picks l k).Nodup
  | 0, _, _, _ => by simp [sampleWR]
  | k + 1, picks, l, hl => by
    by_cases h : 0 < l.length
    · rw [sampleWR, dif_pos h]
      refine List.nodup_cons.mpr
        ⟨fun hmem => ?_, sampleWR_nodup k _ _ ((List.eraseIdx_sublist l _).nodup hl)⟩
      exact get_not_mem_eraseIdx_of_nodup hl _ _ (sampleWR_subset k _ _ _ hmem)
    · rw [sampleWR, dif_neg h]
      simp

/-- Uniformity evidence for the sampler: on a duplicate-free pool,
distinct in-range draw sequences produce distinct samples, so the
`n * (n-1) * ... * (n-k+1)` equiprobable draw sequences map one-to-one
onto ordered samples — each `k`-permutation of the pool is produced by
exactly one draw sequence. -/
theorem sampleWR_pick_inj [Inhabited α] :
    ∀ (k : Nat) (l : List α) (p₁ p₂ : Nat → Nat), l.Nodup → k ≤ l.length →
      (∀ j, j < k → p₁ j < l.length - j) → (∀ j, j < k → p₂ j < l.length - j) →
      sampleWR p₁ l k = sampleWR p₂ l k →
      ∀ j, j < k → p₁ j = p₂ j
  | 0, _, _, _, _, _, _, _, _ => fun j hj => absurd hj (Nat.not_lt_zero j)
  | k + 1, l, p₁, p₂, hl, hk, hb₁, hb₂, heq => by
    have h : 0 < l.length := Nat.lt_of_lt_of_le (Nat.zero_lt_succ k) hk
    rw [sampleWR, dif_pos h, sampleWR, dif_pos h] at heq
    have h₁ : p₁ 0 % l.length = p₁ 0 :=
      Nat.mod_eq_of_lt (by have := hb₁ 0 (Nat.zero_lt_succ k); omega)
    have h₂ : p₂ 0 % l.length = p₂ 0 :=
      Nat.mod_eq_of_lt (by have := hb₂ 0 (Nat.zero_lt_succ k); omega)
    obtain ⟨hhd, htl⟩ := List.cons_eq_cons.mp heq
    have hidx : p₁ 0 % l.length = p₂ 0 % l.length := by
      have hfin := hl.get_inj_iff.mp hhd
      exact congrArg Fin.val hfin
    have h0 : p₁ 0 = p₂ 0 := by rw [h₁, h₂] at hidx; exact hidx
    rw [hidx] at htl
    have hlen : (l.eraseIdx (p₂ 0 % l.length)).length = l.length - 1 := by
      rw [List.length_eraseIdx, if_pos (Nat.mod_lt _ h)]
    have ih := sampleWR_pick_inj k (l.eraseIdx (p₂ 0 % l.length))
      (fun n => p₁ (n + 1)) (fun n => p₂ (n + 1))
      ((List.eraseIdx_sublist l _).nodup hl) (by omega)
      (fun j hj => by
        show p₁ (j + 1) < _
        rw [hlen]; have := hb₁ (j + 1) (by omega); omega)
      (fun j hj => by
        show p₂ (j + 1) < _
        rw [hlen]; have := hb₂ (j + 1) (by omega); omega)
      htl
    intro j hj
    cases j with
    | zero => exact h0
    | succ j' => exact ih j' (by omega)

/-- C4: smart-rng selection: the candidate pool is the combined
direct-asset and album identifiers de-duplicated to first occurrences in
first-seen order (no repeats, order inherited from the response, the
head kept at its first position by the recurrence); a pool no larger
than `desiredCount` is returned whole and unchanged; a larger pool
yields, for every draw sequence of the without-replacement sampler,
exactly `desiredCount` pairwise-distinct identifiers all taken from the
pool. -/
theorem smart_rng_selection (q : String) (maxR count : Nat) (p : SelectorParams)
    (r : SmartResponse) (picks : Nat → Nat) :
    (dedupFirst (smartCollectIds r)).Nodup ∧
    (dedupFirst (smartCollectIds r)).Sublist (smartCollectIds r) ∧
    (∀ x, x ∈ dedupFirst (smartCollectIds r) ↔ x ∈ smartCollectIds r) ∧
    (∀ (a : String) (l : List String),
      dedupFirst (a :: l) = a :: dedupFirst (l.filter (fun x => x ≠ a))) ∧
    ((dedupFirst (smartCollectIds r)).length ≤ count →
      (rngGetAssets q maxR p count r picks).2 = dedupFirst (smartCollectIds r)) ∧
    (count < (dedupFirst (smartCollectIds r)).length →
      ((rngGetAssets q maxR p count r picks).2.length = count ∧
       (rngGetAssets q maxR p count r picks).2.Nodup ∧
       (∀ x, x ∈ (rngGetAssets q maxR p count r picks).2 →
         x ∈ dedupFirst (smartCollectIds r)))) := by
  refine ⟨nodup_dedupFirstAux _ _, dedupFirstAux_sublist _ _, fun x => ?_,
    dedupFirst_cons, fun hle => ?_, fun hlt => ?_⟩
  · rw [dedupFirst, mem_dedupFirstAux]
    simp
  · simp [rngGetAssets, rngSelectFromPool, hle]
  · have hnle : ¬ (dedupFirst (smartCollectIds r)).length ≤ count := by omega
    refine ⟨?_, ?_, fun x hx => ?_⟩
    · simp only [rngGetAssets, rngSelectFromPool, if_neg hnle]
      rw [sampleWR_length]
      omega
    · simp only [rngGetAssets, rngSelectFromPool, if_neg hnle]
      exact sampleWR_nodup count picks _ (nodup_dedupFirstAux _ _)
    · simp only [rngGetAssets, rngSelectFromPool, if_neg hnle] at hx
      exact sampleWR_subset count picks _ x hx

/-- C4 witness: a pool of three distinct identifiers (after removing the
overlap between the assets and albums sections) sampled at
`desiredCount = 2` returns exactly two identifiers. -/
theorem smart_rng_selection_witness :
    (rngGetAssets "q" 250 noFilters 2 respPool (fun _ => 0)).2.length = 2 :=
  ((smart_rng_selection "q" 250 2 noFilters respPool (fun _ => 0)).2.2.2.2.2
    (by decide)).1

end HassImmich
